import Mathlib

/-!
Verification development for the Dream11 predictor (`Backend/team.py`).
The Python class `Dream11Predictor` is shallowly embedded: its dictionaries
become functions `String → Option _`, its insertion-ordered score dict an
association list, floats become rationals, and each method a Lean function
translated clause by clause from the source.
-/

namespace Predict11

/-! ## String utilities: Python's `needle in haystack` substring test -/

/-- Does the character list `n` occur as a leading segment of `h`? -/
def leadSeg : List Char → List Char → Bool
  | [], _ => true
  | _ :: _, [] => false
  | a :: as, b :: bs => a == b && leadSeg as bs

/-- Does `n` occur as a contiguous segment somewhere in `h`? -/
def hasSeg : List Char → List Char → Bool
  | [], n => n.isEmpty
  | h :: t, n => leadSeg n (h :: t) || hasSeg t n

/-- Python's case-sensitive `needle in hay` on strings. -/
def strContains (hay needle : String) : Bool :=
  hasSeg hay.data needle.data

/-- Case-insensitive containment, as pandas `str.contains(_, case=False)`
uses in the venue pass (the pattern here is a plain venue name). -/
def strContainsCI (hay needle : String) : Bool :=
  hasSeg (hay.data.map Char.toLower) (needle.data.map Char.toLower)

/-! ## Roles -/

/-- The four role categories the selector distinguishes
(`MAX_ROLE_PER_TEAM` keys `'WK' 'BAT' 'ALL' 'BOWL'`). -/
inductive Role where
  | WK
  | BAT
  | ALL
  | BOWL
deriving DecidableEq, Repr

/-- `MAX_ROLE_PER_TEAM = {'WK': 2, 'BAT': 3, 'ALL': 3, 'BOWL': 3}`. -/
def maxRolePerTeam : Role → ℕ
  | Role.WK => 2
  | Role.BAT => 3
  | Role.ALL => 3
  | Role.BOWL => 3

/-- The if/elif chain of `_simplify_role` on the looked-up role text:
`"WK" in role`, `"Bowler" in role`, `"All-Rounder" in role or
"Allrounder" in role`, `"Batter" in role or "Batsman" in role`,
else `"BAT"`.  Python's `in` is case-sensitive. -/
def simplifyRoleText (role : String) : Role :=
  if strContains role "WK" then Role.WK
  else if strContains role "Bowler" then Role.BOWL
  else if strContains role "All-Rounder" || strContains role "Allrounder" then Role.ALL
  else if strContains role "Batter" || strContains role "Batsman" then Role.BAT
  else Role.BAT

/-- `_simplify_role(self, player)`: look the player up in
`self.player_roles` with default `"Unknown"` and classify the text. -/
def simplifyRole (roles : String → Option String) (p : String) : Role :=
  simplifyRoleText ((roles p).getD "Unknown")

/-- The hard-coded wicketkeeper exception list of `categorize_players`. -/
def wkExceptions : List String :=
  ["MS Dhoni", "Rishabh Pant", "KL Rahul", "Sanju Samson",
   "Ishan Kishan", "Nicholas Pooran", "Josh Inglis", "Prabhsimran Singh"]

/-- The per-player branch of `categorize_players`: the role-text chain
(which, unlike `_simplify_role`, also accepts `"All-rounder"` and
`"All Rounder"`), then the content fallback on membership in
`self.batter_data` / `self.bowler_data`. -/
def categorizeRole (batIn bowlIn : Bool) (name role : String) : Role :=
  if strContains role "WK" then Role.WK
  else if strContains role "Bowler" then Role.BOWL
  else if strContains role "All-Rounder" || strContains role "Allrounder"
      || strContains role "All-rounder" || strContains role "All Rounder" then Role.ALL
  else if strContains role "Batter" || strContains role "Batsman" then Role.BAT
  else if batIn && !bowlIn then
    if name ∈ wkExceptions then Role.WK else Role.BAT
  else if bowlIn && !batIn then Role.BOWL
  else Role.ALL

/-! ## The player registry (the predictor's lookup dictionaries) -/

/-- The four per-player lookup dictionaries the selector reads:
`player_roles`, `player_credits`, `player_is_foreign`, `player_teams`. -/
@[ext]
structure Registry where
  roles : String → Option String
  credits : String → Option ℚ
  isForeign : String → Option Bool
  teams : String → Option String

/-- `self.player_credits.get(player, 7.0)`. -/
def playerCredits (reg : Registry) (p : String) : ℚ :=
  (reg.credits p).getD 7

/-- `self.player_is_foreign.get(player, False)`. -/
def playerForeign (reg : Registry) (p : String) : Bool :=
  (reg.isForeign p).getD false

/-- `self.player_teams.get(player, "Unknown")`. -/
def playerTeam (reg : Registry) (p : String) : String :=
  (reg.teams p).getD "Unknown"

/-! ## Categorisation of the scored list (`categorize_players`) -/

/-- The four lists built by `categorize_players`. -/
structure Categorized where
  batsmen : List (String × ℚ)
  bowlers : List (String × ℚ)
  allRounders : List (String × ℚ)
  wicketKeepers : List (String × ℚ)
deriving DecidableEq

/-- `categorize_players(self, sorted_players)`: scan the scored list,
appending each pair to the list its role category selects.  `batIn` and
`bowlIn` are membership in `self.batter_data` / `self.bowler_data`. -/
def categorizePlayers (roles : String → Option String) (batIn bowlIn : String → Bool)
    (sorted : List (String × ℚ)) : Categorized :=
  sorted.foldl (fun c p =>
    match categorizeRole (batIn p.1) (bowlIn p.1) p.1 ((roles p.1).getD "Unknown") with
    | Role.WK => { c with wicketKeepers := c.wicketKeepers ++ [p] }
    | Role.BOWL => { c with bowlers := c.bowlers ++ [p] }
    | Role.ALL => { c with allRounders := c.allRounders ++ [p] }
    | Role.BAT => { c with batsmen := c.batsmen ++ [p] })
    { batsmen := [], bowlers := [], allRounders := [], wicketKeepers := [] }

/-! ## The greedy selector (`select_dream11_team`) -/

/-- The loop state of `select_dream11_team`: the growing team plus the
running counters `total_credits`, `foreign_count`, `self.team_counts`
and `self.role_team_counts` (defaultdicts, hence total functions). -/
structure SelState where
  selected : List (String × ℚ)
  totalCredits : ℚ
  foreignCount : ℕ
  teamCounts : String → ℕ
  roleTeamCounts : String → Role → ℕ

/-- The loop's fresh counters: empty team, zero totals, zeroed defaultdicts. -/
def initSelState : SelState :=
  { selected := []
    totalCredits := 0
    foreignCount := 0
    teamCounts := fun _ => 0
    roleTeamCounts := fun _ _ => 0 }

/-- The candidate survives the four `continue` guards of the loop:
not at the origin-team cap of 6, not at that team's role cap, the
credits fit the budget of 100, and foreign players stay under 4. -/
def PassesChecks (reg : Registry) (s : SelState) (p : String) : Prop :=
  ¬ 6 ≤ s.teamCounts (playerTeam reg p) ∧
  ¬ maxRolePerTeam (simplifyRole reg.roles p) ≤
      s.roleTeamCounts (playerTeam reg p) (simplifyRole reg.roles p) ∧
  ¬ (100 : ℚ) < s.totalCredits + playerCredits reg p ∧
  ¬ (playerForeign reg p = true ∧ 4 ≤ s.foreignCount)

instance (reg : Registry) (s : SelState) (p : String) :
    Decidable (PassesChecks reg s p) := by
  unfold PassesChecks; infer_instance

/-- The accept branch: append the pair and bump every counter. -/
def acceptPlayer (reg : Registry) (s : SelState) (p : String × ℚ) : SelState :=
  { selected := s.selected ++ [p]
    totalCredits := s.totalCredits + playerCredits reg p.1
    foreignCount := s.foreignCount + (if playerForeign reg p.1 then 1 else 0)
    teamCounts := fun t =>
      if t = playerTeam reg p.1 then s.teamCounts t + 1 else s.teamCounts t
    roleTeamCounts := fun t r =>
      if t = playerTeam reg p.1 ∧ r = simplifyRole reg.roles p.1 then
        s.roleTeamCounts t r + 1
      else s.roleTeamCounts t r }

/-- The `for player, score in sorted_players` loop, with the
`break` once the team reaches 11. -/
def selectLoop (reg : Registry) : SelState → List (String × ℚ) → SelState
  | s, [] => s
  | s, p :: rest =>
    if PassesChecks reg s p.1 then
      if (acceptPlayer reg s p).selected.length = 11 then acceptPlayer reg s p
      else selectLoop reg (acceptPlayer reg s p) rest
    else selectLoop reg s rest

/-- Insert one pair into an already-sorted (descending) list, keeping
ties in their existing order behind the earlier-inserted element. -/
def insertDesc (x : String × ℚ) : List (String × ℚ) → List (String × ℚ)
  | [] => [x]
  | y :: l => if y.2 ≤ x.2 then x :: y :: l else y :: insertDesc x l

/-- `sorted(self.player_scores.items(), key=lambda x: x[1], reverse=True)`:
a stable descending sort by score (Python's sort is stable, and ties keep
dict insertion order).  Realised as a stable insertion sort, which yields
the same list. -/
def sortPlayersDesc : List (String × ℚ) → List (String × ℚ)
  | [] => []
  | a :: l => insertDesc a (sortPlayersDesc l)

/-- What `select_dream11_team` returns:
`(selected_team, captain, vice_captain, total_credits, foreign_count)`. -/
structure SelResult where
  team : List (String × ℚ)
  captain : Option String
  viceCaptain : Option String
  totalCredits : ℚ
  foreignCount : ℕ

/-- `select_dream11_team(self)`: sort the scores descending, run the
greedy loop from fresh counters, and name captain/vice-captain as the
first two selected when at least two exist. -/
def selectDream11Team (reg : Registry) (playerScores : List (String × ℚ)) : SelResult :=
  let s := selectLoop reg initSelState (sortPlayersDesc playerScores)
  if 2 ≤ s.selected.length then
    { team := s.selected
      captain := (s.selected.get? 0).map Prod.fst
      viceCaptain := (s.selected.get? 1).map Prod.fst
      totalCredits := s.totalCredits
      foreignCount := s.foreignCount }
  else
    { team := s.selected
      captain := none
      viceCaptain := none
      totalCredits := s.totalCredits
      foreignCount := s.foreignCount }

/-! ## Derived measures over a team list, used to state the invariants -/

/-- Sum of the looked-up credits over a team list. -/
def sumCredits (reg : Registry) (l : List (String × ℚ)) : ℚ :=
  (l.map fun p => playerCredits reg p.1).sum

/-- Number of selected players whose foreign flag is set. -/
def countForeign (reg : Registry) (l : List (String × ℚ)) : ℕ :=
  l.countP fun p => playerForeign reg p.1

/-- Number of selected players whose origin team is `t`. -/
def teamCount (reg : Registry) (t : String) (l : List (String × ℚ)) : ℕ :=
  l.countP fun p => decide (playerTeam reg p.1 = t)

/-- Number of selected players of origin team `t` and role category `r`. -/
def roleTeamCount (reg : Registry) (t : String) (r : Role)
    (l : List (String × ℚ)) : ℕ :=
  l.countP fun p => decide (playerTeam reg p.1 = t ∧ simplifyRole reg.roles p.1 = r)

/-- The selection invariants of the spec, recomputed from the team list:
budget, foreign cap, origin-team cap and per-origin-team role caps. -/
def CapsOK (reg : Registry) (l : List (String × ℚ)) : Prop :=
  sumCredits reg l ≤ 100 ∧
  countForeign reg l ≤ 4 ∧
  (∀ t, teamCount reg t l ≤ 6) ∧
  (∀ t r, roleTeamCount reg t r l ≤ maxRolePerTeam r)

/-- The loop counters agree with the team list they summarise. -/
def Consistent (reg : Registry) (s : SelState) : Prop :=
  s.totalCredits = sumCredits reg s.selected ∧
  s.foreignCount = countForeign reg s.selected ∧
  (∀ t, s.teamCounts t = teamCount reg t s.selected) ∧
  (∀ t r, s.roleTeamCounts t r = roleTeamCount reg t r s.selected)

/-! ## The minimum-requirements pre-pass (`ensure_minimum_requirements`) -/

/-- One category's scan: skip a player already in `sel` (the
`len([p for p in selected_players if p[0] == player]) > 0` guard),
accept the first one whose credits fit the budget and whose foreign
flag respects the cap, and stop at the first acceptance (`break`). -/
def tryReserve (reg : Registry) :
    List (String × ℚ) → ℚ → ℕ → List (String × ℚ) → List (String × ℚ) × ℚ × ℕ
  | sel, tc, fc, [] => (sel, tc, fc)
  | sel, tc, fc, p :: rest =>
    if 0 < (sel.filter fun q => q.1 == p.1).length then
      tryReserve reg sel tc fc rest
    else
      if tc + playerCredits reg p.1 ≤ 100 ∧ (playerForeign reg p.1 = false ∨ fc < 4) then
        (sel ++ [p], tc + playerCredits reg p.1,
          if playerForeign reg p.1 then fc + 1 else fc)
      else
        tryReserve reg sel tc fc rest

/-- `ensure_minimum_requirements(self, categorized_players, total_credits,
foreign_count)`: starting from an empty reservation list, scan the four
categories in the source's order `wicket_keepers, batsmen, all_rounders,
bowlers`, reserving at most one player from each. -/
def ensureMinimumRequirements (reg : Registry) (cat : Categorized)
    (tc : ℚ) (fc : ℕ) : List (String × ℚ) × ℚ × ℕ :=
  let r1 := tryReserve reg [] tc fc cat.wicketKeepers
  let r2 := tryReserve reg r1.1 r1.2.1 r1.2.2 cat.batsmen
  let r3 := tryReserve reg r2.1 r2.2.1 r2.2.2 cat.allRounders
  tryReserve reg r3.1 r3.2.1 r3.2.2 cat.bowlers

/-! ## Head-to-head analysis (`analyze_head_to_head`) -/

/-- One head-to-head encounter record: the numeric fields the pass reads,
each possibly absent, plus whether a `'Message'` key (the "no data"
flag) is present. -/
structure H2HRecord where
  strikeRate : Option ℚ
  average : Option ℚ
  boundaryPct : Option ℚ
  dismissals : Option ℚ
  econ : Option ℚ
  message : Bool
deriving DecidableEq, Repr

/-- A stored `head_to_head[opponent]` value: a single record (a JSON
dict) or a list of records. -/
inductive H2HData where
  | record (r : H2HRecord)
  | recList (l : List H2HRecord)
deriving DecidableEq, Repr

/-- `(strike_rate / 100) * 2 + (avg / 10) + (boundary_pct / 10) -
(dismissals * 2)`, fields defaulting to 0 via `.get(_, 0)`. -/
def batH2HContribution (r : H2HRecord) : ℚ :=
  r.strikeRate.getD 0 / 100 * 2 + r.average.getD 0 / 10
    + r.boundaryPct.getD 0 / 10 - r.dismissals.getD 0 * 2

/-- `(dismissals * 5) + (10 - min(economy, 10))` with
`economy = h2h_data.get('Econ', 15)`. -/
def bowlH2HContribution (r : H2HRecord) : ℚ :=
  r.dismissals.getD 0 * 5 + (10 - min (r.econ.getD 15) 10)

/-- The batter-direction handling of one stored value: a non-empty list
collapses to its first record, an empty list is left as a list and then
fails the `isinstance(h2h_data, dict)` test, and a record carrying a
`'Message'` key is skipped (`none` = nothing added). -/
def batPairScore : H2HData → Option ℚ
  | H2HData.record r => if r.message then none else some (batH2HContribution r)
  | H2HData.recList [] => none
  | H2HData.recList (r :: _) =>
      if r.message then none else some (batH2HContribution r)

/-- The bowler-direction handling of one stored value: only
`isinstance(h2h_data, dict)` is tested, so a list is skipped whole and
a record is used whether or not it carries a `'Message'` key. -/
def bowlPairScore : H2HData → Option ℚ
  | H2HData.record r => some (bowlH2HContribution r)
  | H2HData.recList _ => none

/-- The insertion-ordered `self.player_scores` dict. -/
abbrev ScoreMap := List (String × ℚ)

/-- `if player not in self.player_scores: self.player_scores[player] = 0`. -/
def initScore (m : ScoreMap) (p : String) : ScoreMap :=
  if m.any fun q => q.1 == p then m else m ++ [(p, 0)]

/-- `self.player_scores[player] += v` (a no-op on a key that is absent,
which in the embedded flows never happens after initialisation). -/
def addScore (m : ScoreMap) (p : String) (v : ℚ) : ScoreMap :=
  m.map fun q => if q.1 == p then (q.1, q.2 + v) else q

/-- `self.player_scores.get`-style lookup used to state score facts. -/
def lookupScore (m : ScoreMap) (p : String) : Option ℚ :=
  (m.find? fun q => q.1 == p).map Prod.snd

/-- A parsed batting-venue row: venue name, `Average`, `Strike Rate`. -/
structure BatVenueRow where
  venueName : String
  average : ℚ
  strikeRate : ℚ
deriving DecidableEq, Repr

/-- A parsed bowling-venue row: venue name, `Wickets`, `Economy`. -/
structure BowlVenueRow where
  venueName : String
  wickets : ℚ
  economy : ℚ
deriving DecidableEq, Repr

/-- A parsed recent-form table: the four columns the pass may read,
each present or absent. -/
structure FormTable where
  runs : Option (List ℚ)
  strikeRate : Option (List ℚ)
  wickets : Option (List ℚ)
  economy : Option (List ℚ)
deriving DecidableEq, Repr

/-- One player's historical record in `batter_data` / `bowler_data`:
the head-to-head dict, the parsed venue tables (`venue['Batting']` /
`venue['Bowling']`) and the recent-form entry list, each possibly
absent. -/
structure StatsRec where
  headToHead : String → Option H2HData
  venueBatting : Option (List BatVenueRow)
  venueBowling : Option (List BowlVenueRow)
  recentForm : Option (List (String × FormTable))

/-- One batter's iteration in the first team loop of
`analyze_head_to_head`: initialise the score to 0 if absent, then for
each `team2` bowler with a stored head-to-head value add the
batter-direction contribution. -/
def h2hBatterStep (batterData : String → Option StatsRec) (team2 : List String)
    (m : ScoreMap) (batter : String) : ScoreMap :=
  let m := initScore m batter
  match batterData batter with
  | none => m
  | some sr =>
    team2.foldl (fun m bowler =>
      match sr.headToHead bowler with
      | none => m
      | some d =>
        match batPairScore d with
        | none => m
        | some v => addScore m batter v) m

/-- The first team loop of `analyze_head_to_head`. -/
def h2hBatterPass (batterData : String → Option StatsRec)
    (team1 team2 : List String) (m : ScoreMap) : ScoreMap :=
  team1.foldl (h2hBatterStep batterData team2) m

/-- One bowler's iteration in the second team loop of
`analyze_head_to_head`: initialise the score, then for each `team1`
batter with a stored head-to-head value add the bowler-direction
contribution. -/
def h2hBowlerStep (bowlerData : String → Option StatsRec) (team1 : List String)
    (m : ScoreMap) (bowler : String) : ScoreMap :=
  let m := initScore m bowler
  match bowlerData bowler with
  | none => m
  | some sr =>
    team1.foldl (fun m batter =>
      match sr.headToHead batter with
      | none => m
      | some d =>
        match bowlPairScore d with
        | none => m
        | some v => addScore m bowler v) m

/-- The second team loop of `analyze_head_to_head`. -/
def h2hBowlerPass (bowlerData : String → Option StatsRec)
    (team1 team2 : List String) (m : ScoreMap) : ScoreMap :=
  team2.foldl (h2hBowlerStep bowlerData team1) m

/-- `analyze_head_to_head(self, team1_players, team2_players)`. -/
def analyzeH2H (batterData bowlerData : String → Option StatsRec)
    (team1 team2 : List String) (m : ScoreMap) : ScoreMap :=
  h2hBowlerPass bowlerData team1 team2 (h2hBatterPass batterData team1 team2 m)

/-! ## Venue analysis (`analyze_venue_performance`) -/

/-- First batting-venue row whose venue name contains the target
case-insensitively, mapped to `avg/20 + strike_rate/100`. -/
def batVenueScore (venue : String) (rows : List BatVenueRow) : Option ℚ :=
  (rows.find? fun r => strContainsCI r.venueName venue).map
    fun r => r.average / 20 + r.strikeRate / 100

/-- First bowling-venue row whose venue name contains the target
case-insensitively, mapped to `wickets*3 + (10 - min(economy, 10))`. -/
def bowlVenueScore (venue : String) (rows : List BowlVenueRow) : Option ℚ :=
  (rows.find? fun r => strContainsCI r.venueName venue).map
    fun r => r.wickets * 3 + (10 - min r.economy 10)

/-- The batting-venue contribution for one player, when the player's
batter record has a `venue['Batting']` table with a matching row. -/
def batVenueDelta (batterData : String → Option StatsRec)
    (venue : String) (p : String) : Option ℚ :=
  match batterData p with
  | none => none
  | some sr =>
    match sr.venueBatting with
    | none => none
    | some rows => batVenueScore venue rows

/-- The bowling-venue contribution for one player, when the player's
bowler record has a `venue['Bowling']` table with a matching row. -/
def bowlVenueDelta (bowlerData : String → Option StatsRec)
    (venue : String) (p : String) : Option ℚ :=
  match bowlerData p with
  | none => none
  | some sr =>
    match sr.venueBowling with
    | none => none
    | some rows => bowlVenueScore venue rows

/-- One player's iteration of `analyze_venue_performance`: add the
batting-venue contribution if any, then the bowling-venue contribution
if any.  No score entry is initialised here. -/
def venueStep (batterData bowlerData : String → Option StatsRec)
    (venue : String) (m : ScoreMap) (p : String) : ScoreMap :=
  let m :=
    match batVenueDelta batterData venue p with
    | none => m
    | some v => addScore m p v
  match bowlVenueDelta bowlerData venue p with
  | none => m
  | some v => addScore m p v

/-- `analyze_venue_performance(self, venue, players)`. -/
def analyzeVenue (batterData bowlerData : String → Option StatsRec)
    (venue : String) (players : List String) (m : ScoreMap) : ScoreMap :=
  players.foldl (venueStep batterData bowlerData venue) m

/-! ## Recent-form analysis (`analyze_recent_form`)

The arithmetic below is the pass as written: each `'Batting Match-wise'`
entry contributes `mean(Runs)/10 + mean(Strike Rate)/100` and each
`'Bowling Match-wise'` entry `mean(Wickets)*5 + (10 - min(mean(Economy),
10))`, a missing column contributing nothing.  At runtime the source
parses each table with `pd.read_csv(pd.StringIO(...))`, and `pandas` has
no `StringIO` attribute, so every iteration raises `AttributeError`,
which the blanket `except Exception: pass` swallows: the running program
only ever performs this pass's score initialisation, never the adds. -/

/-- Mean of a parsed numeric column (`sum/length`; the flows of interest
have non-empty columns). -/
def mean (l : List ℚ) : ℚ := l.sum / l.length

/-- One batting-form entry's contribution as written. -/
def formEntryBatScore (t : FormTable) : ℚ :=
  (match t.runs with | some l => mean l / 10 | none => 0)
    + (match t.strikeRate with | some l => mean l / 100 | none => 0)

/-- One bowling-form entry's contribution as written. -/
def formEntryBowlScore (t : FormTable) : ℚ :=
  (match t.wickets with | some l => mean l * 5 | none => 0)
    + (match t.economy with | some l => 10 - min (mean l) 10 | none => 0)

/-- The batter half of one `analyze_recent_form` iteration: scan the
batter record's `recent_form` entries for `'Batting Match-wise'` labels,
adding each matching entry's contribution. -/
def batFormAdds (batterData : String → Option StatsRec)
    (m : ScoreMap) (p : String) : ScoreMap :=
  match batterData p with
  | none => m
  | some sr =>
    match sr.recentForm with
    | none => m
    | some entries =>
      entries.foldl (fun m e =>
        if e.1 = "Batting Match-wise" then addScore m p (formEntryBatScore e.2)
        else m) m

/-- The bowler half of one `analyze_recent_form` iteration: scan the
bowler record's `recent_form` entries for `'Bowling Match-wise'` labels,
adding each matching entry's contribution. -/
def bowlFormAdds (bowlerData : String → Option StatsRec)
    (m : ScoreMap) (p : String) : ScoreMap :=
  match bowlerData p with
  | none => m
  | some sr =>
    match sr.recentForm with
    | none => m
    | some entries =>
      entries.foldl (fun m e =>
        if e.1 = "Bowling Match-wise" then addScore m p (formEntryBowlScore e.2)
        else m) m

/-- One player's iteration of `analyze_recent_form` as written:
initialise the score, then the batting-form adds, then the bowling-form
adds. -/
def recentFormStep (batterData bowlerData : String → Option StatsRec)
    (m : ScoreMap) (p : String) : ScoreMap :=
  bowlFormAdds bowlerData (batFormAdds batterData (initScore m p) p) p

/-- `analyze_recent_form(self, players)` as written. -/
def analyzeRecentForm (batterData bowlerData : String → Option StatsRec)
    (players : List String) (m : ScoreMap) : ScoreMap :=
  players.foldl (recentFormStep batterData bowlerData) m

/-! ## The full pipeline (`set_player_roles`, `predict_dream11`) -/

/-- What `get_player_info_from_csv` returns when a roster row matches:
`{'role', 'credits', 'foreign', 'team'}`. -/
structure CsvInfo where
  role : String
  credits : ℚ
  foreign : Bool
  team : String

/-- The data loaded once in the constructor: the two historical-stats
dicts and the roster lookup (the name-matched search over the squad
CSV files, including which team's file the row came from). -/
structure FixedData where
  batterData : String → Option StatsRec
  bowlerData : String → Option StatsRec
  csvLookup : String → Option CsvInfo

/-- One `"Name(Role)"` or bare `"Name"` entry of a playing eleven,
already split into the name and the optional role text. -/
structure PlayerEntry where
  name : String
  roleText : Option String

/-- One iteration of the `set_player_roles` loop over a `Registry`
snapshot of the four dictionaries: record the parsed role (default
`"Unknown"`), then consult the roster; a hit updates the role when it
was `"Unknown"` and sets credits, foreign flag and team, a miss sets
the 7.0/False defaults and leaves the team untouched. -/
def setRolesStep (d : FixedData) (r : Registry) (e : PlayerEntry) : Registry :=
  let role0 := e.roleText.getD "Unknown"
  match d.csvLookup e.name with
  | some info =>
    { roles := fun n =>
        if n = e.name then some (if role0 = "Unknown" then info.role else role0)
        else r.roles n
      credits := fun n => if n = e.name then some info.credits else r.credits n
      isForeign := fun n => if n = e.name then some info.foreign else r.isForeign n
      teams := fun n => if n = e.name then some info.team else r.teams n }
  | none =>
    { roles := fun n => if n = e.name then some role0 else r.roles n
      credits := fun n => if n = e.name then some (7 : ℚ) else r.credits n
      isForeign := fun n => if n = e.name then some false else r.isForeign n
      teams := r.teams }

/-- `set_player_roles(self, players_with_roles)` over the registry. -/
def setPlayerRoles (d : FixedData) (r : Registry) (es : List PlayerEntry) : Registry :=
  es.foldl (setRolesStep d) r

/-- The mutable per-instance state `predict_dream11` touches:
the registry dictionaries, `player_scores` and `selected_team`. -/
structure PredictorState where
  registry : Registry
  playerScores : ScoreMap
  selectedTeam : List (String × ℚ)

/-- The match input: labels, venue and the two playing elevens. -/
structure MatchInput where
  team1 : String
  team2 : String
  venue : String
  team1XI : List PlayerEntry
  team2XI : List PlayerEntry

/-- The body of `predict_dream11` as a function of the registry
dictionaries it starts from: set roles from the combined eleven, reset
the score dict (`self.player_scores = {}`), run head-to-head both ways,
the venue pass and the recent-form pass, then select the team. -/
def predictCore (d : FixedData) (reg0 : Registry) (inp : MatchInput) :
    PredictorState × SelResult :=
  let playing11 := inp.team1XI ++ inp.team2XI
  let reg := setPlayerRoles d reg0 playing11
  let team1P := inp.team1XI.map PlayerEntry.name
  let team2P := inp.team2XI.map PlayerEntry.name
  let allP := playing11.map PlayerEntry.name
  let m1 := analyzeH2H d.batterData d.bowlerData team1P team2P []
  let m2 := analyzeH2H d.batterData d.bowlerData team2P team1P m1
  let m3 := analyzeVenue d.batterData d.bowlerData inp.venue allP m2
  let m4 := analyzeRecentForm d.batterData d.bowlerData allP m3
  let res := selectDream11Team reg m4
  ({ registry := reg, playerScores := m4, selectedTeam := res.team }, res)

/-- `predict_dream11(self, team1, team2, venue, team1_playing11,
team2_playing11)`: the prior mutable state it reads is exactly the four
registry dictionaries (the score dict is reset first and the selection
state rebuilt); it returns the new instance state and the selection
result. -/
def predictDream11 (d : FixedData) (s : PredictorState) (inp : MatchInput) :
    PredictorState × SelResult :=
  predictCore d s.registry inp

/-! ## Properties used in claim statements, and concrete example data -/

/-- The role text matches none of the canonical tokens either classifier
tests for (so both fall through to their final branches). -/
def NoRoleTokenMatch (r : String) : Prop :=
  strContains r "WK" = false ∧ strContains r "Bowler" = false ∧
  strContains r "All-Rounder" = false ∧ strContains r "Allrounder" = false ∧
  strContains r "All-rounder" = false ∧ strContains r "All Rounder" = false ∧
  strContains r "Batter" = false ∧ strContains r "Batsman" = false

instance (r : String) : Decidable (NoRoleTokenMatch r) := by
  unfold NoRoleTokenMatch
  infer_instance

/-- What the pre-pass does guarantee about its running state: no
duplicated names, the budget and foreign caps respected, and at most `k`
players reserved. -/
def ReserveOK (sel : List (String × ℚ)) (tc : ℚ) (fc : ℕ) (k : ℕ) : Prop :=
  (sel.map Prod.fst).Nodup ∧ tc ≤ 100 ∧ fc ≤ 4 ∧ sel.length ≤ k

/-- Example role dictionary: a recognised batter, a player with the
space-separated all-rounder spelling, and no entry for anyone else. -/
def demoRoles : String → Option String := fun n =>
  if n = "B1" then some "Batter" else if n = "A1" then some "All Rounder" else none

/-- Example registry: every player belongs to origin team `"T"`, with no
recorded credits (so the 7.0 default applies) and no foreign flags. -/
def demoReg : Registry :=
  { roles := demoRoles
    credits := fun _ => none
    isForeign := fun _ => none
    teams := fun _ => some "T" }

/-- Example batting-history membership: only `"MS Dhoni"`. -/
def demoBatIn : String → Bool := fun n => n == "MS Dhoni"

/-- Example bowling-history membership: only `"W1"`. -/
def demoBowlIn : String → Bool := fun n => n == "W1"

/-- Example scored list for the pre-pass scenario. -/
def demoScores : List (String × ℚ) :=
  [("MS Dhoni", 0), ("B1", 0), ("A1", 0), ("W1", 0)]

/-- Example bowler-data dict: `"Bowl1"` has one head-to-head entry
against `"Bat1"`, stored as a list with one real record. -/
def demoBowlerData : String → Option StatsRec := fun n =>
  if n = "Bowl1" then
    some { headToHead := fun b =>
             if b = "Bat1" then
               some (H2HData.recList
                 [{ strikeRate := none
                    average := none
                    boundaryPct := none
                    dismissals := some 2
                    econ := some 5
                    message := false }])
             else none
           venueBatting := none
           venueBowling := none
           recentForm := none }
  else none

/-- Example batter-data dict: `"P"` has one batting recent-form table
with one match of 50 runs at strike rate 150. -/
def demoBatterForm : String → Option StatsRec := fun n =>
  if n = "P" then
    some { headToHead := fun _ => none
           venueBatting := none
           venueBowling := none
           recentForm := some [("Batting Match-wise",
             { runs := some [50]
               strikeRate := some [150]
               wickets := none
               economy := none })] }
  else none

/-! # Lemmas

Helper lemmas about the embedded operations, shared by the claim
theorems below. -/

lemma sumCredits_snoc (reg : Registry) (l : List (String × ℚ)) (p : String × ℚ) :
    sumCredits reg (l ++ [p]) = sumCredits reg l + playerCredits reg p.1 := by
  simp [sumCredits]

lemma countForeign_snoc (reg : Registry) (l : List (String × ℚ)) (p : String × ℚ) :
    countForeign reg (l ++ [p])
      = countForeign reg l + (if playerForeign reg p.1 then 1 else 0) := by
  simp [countForeign, List.countP_append, List.countP_cons]

lemma teamCount_snoc (reg : Registry) (t : String) (l : List (String × ℚ))
    (p : String × ℚ) :
    teamCount reg t (l ++ [p])
      = teamCount reg t l + (if playerTeam reg p.1 = t then 1 else 0) := by
  simp [teamCount, List.countP_append, List.countP_cons]

lemma roleTeamCount_snoc (reg : Registry) (t : String) (r : Role)
    (l : List (String × ℚ)) (p : String × ℚ) :
    roleTeamCount reg t r (l ++ [p])
      = roleTeamCount reg t r l
        + (if playerTeam reg p.1 = t ∧ simplifyRole reg.roles p.1 = r then 1 else 0) := by
  simp [roleTeamCount, List.countP_append, List.countP_cons]

lemma acceptPlayer_selected (reg : Registry) (s : SelState) (p : String × ℚ) :
    (acceptPlayer reg s p).selected = s.selected ++ [p] := rfl

lemma acceptPlayer_consistent (reg : Registry) (s : SelState) (p : String × ℚ)
    (h : Consistent reg s) : Consistent reg (acceptPlayer reg s p) := by
  obtain ⟨h1, h2, h3, h4⟩ := h
  refine ⟨?_, ?_, ?_, ?_⟩
  · rw [acceptPlayer_selected, sumCredits_snoc]
    show s.totalCredits + _ = _
    rw [h1]
  · rw [acceptPlayer_selected, countForeign_snoc]
    show s.foreignCount + _ = _
    rw [h2]
  · intro t
    rw [acceptPlayer_selected, teamCount_snoc]
    show (if t = playerTeam reg p.1 then s.teamCounts t + 1 else s.teamCounts t) = _
    by_cases ht : t = playerTeam reg p.1
    · simp [ht, h3]
    · have ht2 : ¬ playerTeam reg p.1 = t := fun h => ht h.symm
      simp [ht, ht2, h3]
  · intro t r
    rw [acceptPlayer_selected, roleTeamCount_snoc]
    show (if t = playerTeam reg p.1 ∧ r = simplifyRole reg.roles p.1 then
        s.roleTeamCounts t r + 1 else s.roleTeamCounts t r) = _
    by_cases ht : t = playerTeam reg p.1 ∧ r = simplifyRole reg.roles p.1
    · simp [ht.1, ht.2, h4]
    · have ht' : ¬ (playerTeam reg p.1 = t ∧ simplifyRole reg.roles p.1 = r) := by
        intro hh
        exact ht ⟨hh.1.symm, hh.2.symm⟩
      simp [ht, ht', h4]

lemma acceptPlayer_caps (reg : Registry) (s : SelState) (p : String × ℚ)
    (hc : Consistent reg s) (hcaps : CapsOK reg s.selected)
    (hp : PassesChecks reg s p.1) : CapsOK reg (acceptPlayer reg s p).selected := by
  obtain ⟨hc1, hc2, hc3, hc4⟩ := hc
  obtain ⟨hk1, hk2, hk3, hk4⟩ := hcaps
  obtain ⟨hp1, hp2, hp3, hp4⟩ := hp
  refine ⟨?_, ?_, ?_, ?_⟩
  · rw [acceptPlayer_selected, sumCredits_snoc, ← hc1]
    exact le_of_not_lt hp3
  · rw [acceptPlayer_selected, countForeign_snoc, ← hc2]
    rw [← hc2] at hk2
    by_cases hf : playerForeign reg p.1 = true
    · have h4 : s.foreignCount < 4 := lt_of_not_le fun h => hp4 ⟨hf, h⟩
      rw [if_pos hf]
      omega
    · rw [if_neg hf]
      omega
  · intro t
    rw [acceptPlayer_selected, teamCount_snoc]
    have hk3t := hk3 t
    by_cases ht : playerTeam reg p.1 = t
    · subst ht
      have h6 : s.teamCounts (playerTeam reg p.1) < 6 := lt_of_not_le hp1
      rw [hc3] at h6
      rw [if_pos rfl]
      omega
    · rw [if_neg ht]
      omega
  · intro t r
    rw [acceptPlayer_selected, roleTeamCount_snoc]
    have hk4tr := hk4 t r
    by_cases htr : playerTeam reg p.1 = t ∧ simplifyRole reg.roles p.1 = r
    · obtain ⟨ht, hr⟩ := htr
      subst ht
      subst hr
      have hcap : s.roleTeamCounts (playerTeam reg p.1) (simplifyRole reg.roles p.1)
          < maxRolePerTeam (simplifyRole reg.roles p.1) := lt_of_not_le hp2
      rw [hc4] at hcap
      rw [if_pos ⟨rfl, rfl⟩]
      omega
    · rw [if_neg htr]
      omega

lemma selectLoop_invariant (reg : Registry) :
    ∀ (l : List (String × ℚ)) (s : SelState), Consistent reg s →
      CapsOK reg s.selected → s.selected.length < 11 →
      Consistent reg (selectLoop reg s l) ∧ CapsOK reg (selectLoop reg s l).selected ∧
        (selectLoop reg s l).selected.length ≤ 11 := by
  intro l
  induction l with
  | nil =>
    intro s hc hcaps hlen
    exact ⟨hc, hcaps, le_of_lt hlen⟩
  | cons p rest ih =>
    intro s hc hcaps hlen
    rw [selectLoop]
    by_cases hpass : PassesChecks reg s p.1
    · rw [if_pos hpass]
      have hc' := acceptPlayer_consistent reg s p hc
      have hcaps' := acceptPlayer_caps reg s p hc hcaps hpass
      have hlen' : (acceptPlayer reg s p).selected.length = s.selected.length + 1 := by
        rw [acceptPlayer_selected]
        simp
      by_cases h11 : (acceptPlayer reg s p).selected.length = 11
      · rw [if_pos h11]
        exact ⟨hc', hcaps', le_of_eq h11⟩
      · rw [if_neg h11]
        exact ih _ hc' hcaps' (by omega)
    · rw [if_neg hpass]
      exact ih s hc hcaps hlen

lemma initSelState_consistent (reg : Registry) : Consistent reg initSelState :=
  ⟨rfl, rfl, fun _ => rfl, fun _ _ => rfl⟩

lemma capsOK_nil (reg : Registry) : CapsOK reg [] := by
  refine ⟨?_, ?_, ?_, ?_⟩
  · show (0 : ℚ) ≤ 100
    norm_num
  · show 0 ≤ 4
    omega
  · intro t
    show 0 ≤ 6
    omega
  · intro t r
    show 0 ≤ maxRolePerTeam r
    omega

lemma selectDream11Team_team (reg : Registry) (scores : List (String × ℚ)) :
    (selectDream11Team reg scores).team
      = (selectLoop reg initSelState (sortPlayersDesc scores)).selected := by
  simp only [selectDream11Team]
  split <;> rfl

lemma selectDream11Team_totalCredits (reg : Registry) (scores : List (String × ℚ)) :
    (selectDream11Team reg scores).totalCredits
      = (selectLoop reg initSelState (sortPlayersDesc scores)).totalCredits := by
  simp only [selectDream11Team]
  split <;> rfl

lemma selectDream11Team_foreignCount (reg : Registry) (scores : List (String × ℚ)) :
    (selectDream11Team reg scores).foreignCount
      = (selectLoop reg initSelState (sortPlayersDesc scores)).foreignCount := by
  simp only [selectDream11Team]
  split <;> rfl

lemma selectLoop_result (reg : Registry) (scores : List (String × ℚ)) :
    Consistent reg (selectLoop reg initSelState (sortPlayersDesc scores)) ∧
      CapsOK reg (selectLoop reg initSelState (sortPlayersDesc scores)).selected ∧
      (selectLoop reg initSelState (sortPlayersDesc scores)).selected.length ≤ 11 :=
  selectLoop_invariant reg (sortPlayersDesc scores) initSelState
    (initSelState_consistent reg) (capsOK_nil reg) (by simp [initSelState])

/-! Stability of the descending sort. -/

lemma sublist_insertDesc (x : String × ℚ) (l : List (String × ℚ)) :
    l.Sublist (insertDesc x l) := by
  induction l with
  | nil => exact List.nil_sublist _
  | cons y t ih =>
    rw [insertDesc]
    split
    · exact List.sublist_cons_self x (y :: t)
    · exact List.Sublist.cons₂ y ih

lemma insertDesc_perm (x : String × ℚ) (l : List (String × ℚ)) :
    (insertDesc x l).Perm (x :: l) := by
  induction l with
  | nil => exact List.Perm.refl _
  | cons y t ih =>
    rw [insertDesc]
    split
    · exact List.Perm.refl _
    · exact (List.Perm.cons y ih).trans (List.Perm.swap x y t)

lemma sortPlayersDesc_perm (l : List (String × ℚ)) :
    (sortPlayersDesc l).Perm l := by
  induction l with
  | nil => exact List.Perm.refl _
  | cons a t ih =>
    rw [sortPlayersDesc]
    exact (insertDesc_perm a (sortPlayersDesc t)).trans (List.Perm.cons a ih)

lemma mem_sortPlayersDesc {b : String × ℚ} {l : List (String × ℚ)}
    (h : b ∈ l) : b ∈ sortPlayersDesc l :=
  (sortPlayersDesc_perm l).mem_iff.mpr h

lemma insertDesc_pair {a b : String × ℚ} (hs : b.2 = a.2) :
    ∀ l : List (String × ℚ), b ∈ l → [a, b].Sublist (insertDesc a l) := by
  intro l
  induction l with
  | nil => intro h; cases h
  | cons y t ih =>
    intro hb
    rw [insertDesc]
    split
    · have hbyt : [b].Sublist (y :: t) := List.singleton_sublist.mpr hb
      exact List.Sublist.cons₂ a hbyt
    · rename_i hle
      have hby : b ≠ y := by
        intro he
        apply hle
        rw [← he, hs]
    -- b is in the tail, so the pair embeds into the recursive insert
      have hbt : b ∈ t := by
        rcases List.mem_cons.mp hb with h | h
        · exact absurd h hby
        · exact h
      exact List.Sublist.cons y (ih hbt)

lemma sortPlayersDesc_stable {a b : String × ℚ} (hs : a.2 = b.2) :
    ∀ l : List (String × ℚ), [a, b].Sublist l → [a, b].Sublist (sortPlayersDesc l) := by
  intro l
  induction l with
  | nil =>
    intro h
    cases h
  | cons c t ih =>
    intro h
    rw [sortPlayersDesc]
    cases h with
    | cons _ h' =>
      exact (ih h').trans (sublist_insertDesc c (sortPlayersDesc t))
    | cons₂ _ h' =>
      have hb : b ∈ t := List.singleton_sublist.mp h'
      exact insertDesc_pair hs.symm (sortPlayersDesc t) (mem_sortPlayersDesc hb)

lemma selectLoop_selected_sublist (reg : Registry) :
    ∀ (l : List (String × ℚ)) (s : SelState),
      ∃ l', l'.Sublist l ∧ (selectLoop reg s l).selected = s.selected ++ l' := by
  intro l
  induction l with
  | nil =>
    intro s
    exact ⟨[], List.nil_sublist _, by simp [selectLoop]⟩
  | cons p rest ih =>
    intro s
    rw [selectLoop]
    by_cases hpass : PassesChecks reg s p.1
    · rw [if_pos hpass]
      by_cases h11 : (acceptPlayer reg s p).selected.length = 11
      · rw [if_pos h11]
        exact ⟨[p], List.cons_sublist_cons.mpr (List.nil_sublist rest),
          acceptPlayer_selected reg s p⟩
      · rw [if_neg h11]
        obtain ⟨l', hsub, heq⟩ := ih (acceptPlayer reg s p)
        refine ⟨p :: l', List.cons_sublist_cons.mpr hsub, ?_⟩
        rw [heq, acceptPlayer_selected]
        simp
    · rw [if_neg hpass]
      obtain ⟨l', hsub, heq⟩ := ih s
      exact ⟨l', List.Sublist.cons p hsub, heq⟩

/-! # Claim theorems -/

/-- Claim C1: every team returned by `selectDream11Team` (over any registry
and any scored player list) satisfies the selection invariants: the sum of
the selected players' credits is at most 100, at most 4 selected players
are foreign, the team has at most 11 players, each origin-team contributes
at most 6 players, and each origin-team's players of each role category
stay within the caps WK:2, BAT:3, ALL:3, BOWL:3. -/
theorem select_team_satisfies_invariants (reg : Registry)
    (scores : List (String × ℚ)) :
    sumCredits reg (selectDream11Team reg scores).team ≤ 100 ∧
    countForeign reg (selectDream11Team reg scores).team ≤ 4 ∧
    (selectDream11Team reg scores).team.length ≤ 11 ∧
    (∀ t, teamCount reg t (selectDream11Team reg scores).team ≤ 6) ∧
    (∀ t r, roleTeamCount reg t r (selectDream11Team reg scores).team
      ≤ maxRolePerTeam r) := by
  obtain ⟨_, ⟨hcred, hfor, hteam, hrole⟩, hlen⟩ := selectLoop_result reg scores
  rw [selectDream11Team_team]
  exact ⟨hcred, hfor, hlen, hteam, hrole⟩

/-- Claim C10: the aggregates the selector returns are consistent with the
returned team list: `totalCredits` is the sum of the looked-up credits
(default 7 when unrecorded), `foreignCount` is the number of selected
players flagged foreign, and when the input score list has no duplicate
names neither has the team. -/
theorem select_team_aggregates_consistent (reg : Registry)
    (scores : List (String × ℚ)) :
    (selectDream11Team reg scores).totalCredits
        = sumCredits reg (selectDream11Team reg scores).team ∧
    (selectDream11Team reg scores).foreignCount
        = countForeign reg (selectDream11Team reg scores).team ∧
    ((scores.map Prod.fst).Nodup →
      ((selectDream11Team reg scores).team.map Prod.fst).Nodup) := by
  obtain ⟨⟨hc1, hc2, _, _⟩, _, _⟩ := selectLoop_result reg scores
  refine ⟨?_, ?_, ?_⟩
  · rw [selectDream11Team_totalCredits, selectDream11Team_team]
    exact hc1
  · rw [selectDream11Team_foreignCount, selectDream11Team_team]
    exact hc2
  · intro hnd
    rw [selectDream11Team_team]
    obtain ⟨l', hsub, heq⟩ :=
      selectLoop_selected_sublist reg (sortPlayersDesc scores) initSelState
    rw [heq]
    have hperm : ((sortPlayersDesc scores).map Prod.fst).Perm (scores.map Prod.fst) :=
      (sortPlayersDesc_perm scores).map Prod.fst
    have hnd' : ((sortPlayersDesc scores).map Prod.fst).Nodup :=
      hperm.nodup_iff.mpr hnd
    have hsubmap : (l'.map Prod.fst).Sublist ((sortPlayersDesc scores).map Prod.fst) :=
      hsub.map Prod.fst
    have : (l'.map Prod.fst).Nodup := hnd'.sublist hsubmap
    simpa [initSelState] using this

/-- Claim C7: the selector considers equal-scored players in the stable
order of the input list: sorting preserves the relative order of any two
tied entries, and when the team has exactly one slot left (10 players
selected) and the next candidate passes every constraint check, that
candidate -- the earlier one in iteration order -- fills the team, and no
later entry is considered. -/
theorem tie_break_stable_order :
    (∀ (l : List (String × ℚ)) (a b : String × ℚ), a.2 = b.2 →
      [a, b].Sublist l → [a, b].Sublist (sortPlayersDesc l)) ∧
    (∀ (reg : Registry) (s : SelState) (a : String × ℚ)
        (rest : List (String × ℚ)), s.selected.length = 10 →
      PassesChecks reg s a.1 →
      (selectLoop reg s (a :: rest)).selected = s.selected ++ [a]) := by
  constructor
  · intro l a b hs hsub
    exact sortPlayersDesc_stable hs l hsub
  · intro reg s a rest hlen hpass
    rw [selectLoop, if_pos hpass]
    have h11 : (acceptPlayer reg s a).selected.length = 11 := by
      rw [acceptPlayer_selected]
      simp [hlen]
    rw [if_pos h11]
    exact acceptPlayer_selected reg s a

/-- Witness for C7 at concrete inputs: the tie `("A", 10) / ("B", 10)` keeps
its input order through the sort, and a passing candidate fills the single
remaining slot, cutting off the rest of the list. -/
theorem tie_break_stable_order_witness :
    [(("A" : String), (10 : ℚ)), ("B", 10)].Sublist
      (sortPlayersDesc [("C", 20), ("A", 10), ("B", 10)]) ∧
    (selectLoop
      { roles := fun _ => none
        credits := fun _ => none
        isForeign := fun _ => none
        teams := fun _ => none }
      { selected := [("P1", 0), ("P2", 0), ("P3", 0), ("P4", 0), ("P5", 0),
          ("P6", 0), ("P7", 0), ("P8", 0), ("P9", 0), ("P10", 0)]
        totalCredits := 70
        foreignCount := 0
        teamCounts := fun _ => 0
        roleTeamCounts := fun _ _ => 0 }
      [("A", 10), ("B", 10)]).selected
      = [("P1", 0), ("P2", 0), ("P3", 0), ("P4", 0), ("P5", 0),
          ("P6", 0), ("P7", 0), ("P8", 0), ("P9", 0), ("P10", 0), ("A", 10)] :=
  ⟨tie_break_stable_order.1 [("C", 20), ("A", 10), ("B", 10)] ("A", 10) ("B", 10) rfl
      (List.Sublist.cons ("C", 20) (List.Sublist.refl _)),
   tie_break_stable_order.2 _ _ ("A", 10) [("B", 10)] rfl
      ⟨by decide, by decide, by norm_num [playerCredits], by decide⟩⟩

/-- Claim C2 counterexample: Python's `in` is case-sensitive, so the
non-canonical casings the spec says classify identically do not: `"BOWLER"`
falls through every token test and lands in the default BAT branch, and
`"wk-batter"` misses the `"WK"` test. -/
theorem role_match_case_sensitive_cex :
    simplifyRoleText "Bowler" = Role.BOWL ∧
    simplifyRoleText "BOWLER" = Role.BAT ∧
    simplifyRoleText "WK-Batter" = Role.WK ∧
    simplifyRoleText "wk-batter" = Role.BAT ∧
    Role.BAT ≠ Role.BOWL ∧ Role.BAT ≠ Role.WK := by
  decide

/-- Claim C2 amended: role classification is a case-sensitive substring
match, tested in the priority order WK, Bowler, the all-rounder variants,
Batter/Batsman; `categorize_players` accepts all four all-rounder
spellings while `_simplify_role` accepts only `"All-Rounder"` and
`"Allrounder"`, so `"All-rounder"` and `"All Rounder"` fall to BAT
there. -/
theorem role_match_priority_order :
    (∀ r : String, strContains r "WK" = true →
      simplifyRoleText r = Role.WK ∧
        ∀ b1 b2 n, categorizeRole b1 b2 n r = Role.WK) ∧
    (∀ r : String, strContains r "WK" = false → strContains r "Bowler" = true →
      simplifyRoleText r = Role.BOWL ∧
        ∀ b1 b2 n, categorizeRole b1 b2 n r = Role.BOWL) ∧
    (∀ r : String, strContains r "WK" = false → strContains r "Bowler" = false →
      strContains r "All-Rounder" = true ∨ strContains r "Allrounder" = true →
      simplifyRoleText r = Role.ALL ∧
        ∀ b1 b2 n, categorizeRole b1 b2 n r = Role.ALL) ∧
    (∀ r : String, strContains r "WK" = false → strContains r "Bowler" = false →
      strContains r "All-Rounder" = false → strContains r "Allrounder" = false →
      strContains r "All-rounder" = true ∨ strContains r "All Rounder" = true →
      simplifyRoleText r = Role.BAT ∧
        ∀ b1 b2 n, categorizeRole b1 b2 n r = Role.ALL) ∧
    (∀ r : String, strContains r "WK" = false → strContains r "Bowler" = false →
      strContains r "All-Rounder" = false → strContains r "Allrounder" = false →
      strContains r "All-rounder" = false → strContains r "All Rounder" = false →
      strContains r "Batter" = true ∨ strContains r "Batsman" = true →
      simplifyRoleText r = Role.BAT ∧
        ∀ b1 b2 n, categorizeRole b1 b2 n r = Role.BAT) := by
  refine ⟨?_, ?_, ?_, ?_, ?_⟩
  · intro r h
    exact ⟨by simp [simplifyRoleText, h], fun b1 b2 n => by simp [categorizeRole, h]⟩
  · intro r h1 h2
    exact ⟨by simp [simplifyRoleText, h1, h2],
      fun b1 b2 n => by simp [categorizeRole, h1, h2]⟩
  · intro r h1 h2 h3
    rcases h3 with h3 | h3 <;>
      exact ⟨by simp [simplifyRoleText, h1, h2, h3],
        fun b1 b2 n => by simp [categorizeRole, h1, h2, h3]⟩
  · intro r h1 h2 h3 h4 h5
    rcases h5 with h5 | h5 <;>
      exact ⟨by simp [simplifyRoleText, h1, h2, h3, h4, h5],
        fun b1 b2 n => by simp [categorizeRole, h1, h2, h3, h4, h5]⟩
  · intro r h1 h2 h3 h4 h5 h6 h7
    rcases h7 with h7 | h7 <;>
      exact ⟨by simp [simplifyRoleText, h1, h2, h3, h4, h7],
        fun b1 b2 n => by simp [categorizeRole, h1, h2, h3, h4, h5, h6, h7]⟩

/-- Witness for the amended C2 at concrete role strings, one per priority
level, including the divergence on `"All Rounder"`. -/
theorem role_match_priority_order_witness :
    simplifyRoleText "WK-Batter" = Role.WK ∧
    simplifyRoleText "Bowler" = Role.BOWL ∧
    simplifyRoleText "Allrounder" = Role.ALL ∧
    categorizeRole false false "N" "All Rounder" = Role.ALL ∧
    simplifyRoleText "All Rounder" = Role.BAT ∧
    simplifyRoleText "Batsman" = Role.BAT :=
  ⟨(role_match_priority_order.1 "WK-Batter" (by decide)).1,
   (role_match_priority_order.2.1 "Bowler" (by decide) (by decide)).1,
   (role_match_priority_order.2.2.1 "Allrounder" (by decide) (by decide)
      (Or.inr (by decide))).1,
   (role_match_priority_order.2.2.2.1 "All Rounder" (by decide) (by decide)
      (by decide) (by decide) (Or.inr (by decide))).2 false false "N",
   (role_match_priority_order.2.2.2.1 "All Rounder" (by decide) (by decide)
      (by decide) (by decide) (Or.inr (by decide))).1,
   (role_match_priority_order.2.2.2.2 "Batsman" (by decide) (by decide)
      (by decide) (by decide) (by decide) (by decide) (Or.inr (by decide))).1⟩

/-- Claim C3 counterexample: the classifier the selection pipeline uses,
`_simplify_role`, has no content-based fallback at all -- an unmatched role
text maps to BAT whatever the player's history -- and in
`categorize_players` a player with neither batting nor bowling history
falls into the all-rounder branch, not BATTER. -/
theorem pipeline_role_fallback_cex :
    simplifyRole (fun _ => some "Unknown") "P" = Role.BAT ∧
    categorizeRole false false "P" "Unknown" = Role.ALL ∧
    Role.BAT ≠ Role.BOWL ∧ Role.ALL ≠ Role.BAT := by
  decide

/-- Claim C3 amended: for unmatched role text, `_simplify_role` (the
pipeline's classifier) always returns BAT, while `categorize_players`
applies the content fallback: batting history only gives BATTER unless the
name is on the wicketkeeper exception list, bowling history only gives
BOWLER, and both -- or neither -- give ALL_ROUNDER. -/
theorem role_fallback_behavior :
    (∀ (roles : String → Option String) (p : String),
      NoRoleTokenMatch ((roles p).getD "Unknown") → simplifyRole roles p = Role.BAT) ∧
    (∀ n r, NoRoleTokenMatch r → n ∈ wkExceptions →
      categorizeRole true false n r = Role.WK) ∧
    (∀ n r, NoRoleTokenMatch r → n ∉ wkExceptions →
      categorizeRole true false n r = Role.BAT) ∧
    (∀ n r, NoRoleTokenMatch r → categorizeRole false true n r = Role.BOWL) ∧
    (∀ n r, NoRoleTokenMatch r → categorizeRole true true n r = Role.ALL) ∧
    (∀ n r, NoRoleTokenMatch r → categorizeRole false false n r = Role.ALL) := by
  refine ⟨?_, ?_, ?_, ?_, ?_, ?_⟩
  · intro roles p h
    obtain ⟨h1, h2, h3, h4, _, _, h7, h8⟩ := h
    simp [simplifyRole, simplifyRoleText, h1, h2, h3, h4, h7, h8]
  · intro n r h hmem
    obtain ⟨h1, h2, h3, h4, h5, h6, h7, h8⟩ := h
    simp [categorizeRole, h1, h2, h3, h4, h5, h6, h7, h8, hmem]
  · intro n r h hmem
    obtain ⟨h1, h2, h3, h4, h5, h6, h7, h8⟩ := h
    simp [categorizeRole, h1, h2, h3, h4, h5, h6, h7, h8, hmem]
  · intro n r h
    obtain ⟨h1, h2, h3, h4, h5, h6, h7, h8⟩ := h
    simp [categorizeRole, h1, h2, h3, h4, h5, h6, h7, h8]
  · intro n r h
    obtain ⟨h1, h2, h3, h4, h5, h6, h7, h8⟩ := h
    simp [categorizeRole, h1, h2, h3, h4, h5, h6, h7, h8]
  · intro n r h
    obtain ⟨h1, h2, h3, h4, h5, h6, h7, h8⟩ := h
    simp [categorizeRole, h1, h2, h3, h4, h5, h6, h7, h8]

/-- Witness for the amended C3 at concrete inputs, one per fallback
branch. -/
theorem role_fallback_behavior_witness :
    simplifyRole (fun _ => none) "Q" = Role.BAT ∧
    categorizeRole true false "MS Dhoni" "Unknown" = Role.WK ∧
    categorizeRole true false "Q" "Unknown" = Role.BAT ∧
    categorizeRole false true "Q" "Unknown" = Role.BOWL ∧
    categorizeRole true true "Q" "Unknown" = Role.ALL ∧
    categorizeRole false false "Q" "Unknown" = Role.ALL :=
  ⟨role_fallback_behavior.1 (fun _ => none) "Q" (by decide),
   role_fallback_behavior.2.1 "MS Dhoni" "Unknown" (by decide) (by decide),
   role_fallback_behavior.2.2.1 "Q" "Unknown" (by decide) (by decide),
   role_fallback_behavior.2.2.2.1 "Q" "Unknown" (by decide),
   role_fallback_behavior.2.2.2.2.1 "Q" "Unknown" (by decide),
   role_fallback_behavior.2.2.2.2.2 "Q" "Unknown" (by decide)⟩

lemma tryReserve_preserves (reg : Registry) :
    ∀ (cat : List (String × ℚ)) (sel : List (String × ℚ)) (tc : ℚ) (fc : ℕ) (k : ℕ),
      ReserveOK sel tc fc k →
      ReserveOK (tryReserve reg sel tc fc cat).1 (tryReserve reg sel tc fc cat).2.1
        (tryReserve reg sel tc fc cat).2.2 (k + 1) := by
  intro cat
  induction cat with
  | nil =>
    intro sel tc fc k h
    obtain ⟨h1, h2, h3, h4⟩ := h
    exact ⟨h1, h2, h3, Nat.le_succ_of_le h4⟩
  | cons p rest ih =>
    intro sel tc fc k h
    obtain ⟨h1, h2, h3, h4⟩ := h
    rw [tryReserve]
    by_cases hdup : 0 < (sel.filter fun q => q.1 == p.1).length
    · rw [if_pos hdup]
      exact ih sel tc fc k ⟨h1, h2, h3, h4⟩
    · rw [if_neg hdup]
      by_cases hacc : tc + playerCredits reg p.1 ≤ 100 ∧
          (playerForeign reg p.1 = false ∨ fc < 4)
      · rw [if_pos hacc]
        refine ⟨?_, hacc.1, ?_, ?_⟩
        · have hnotin : p.1 ∉ sel.map Prod.fst := by
            intro hmem
            obtain ⟨q, hq, hq1⟩ := List.mem_map.mp hmem
            apply hdup
            have hqf : q ∈ sel.filter fun q => q.1 == p.1 :=
              List.mem_filter.mpr ⟨hq, by simp [hq1]⟩
            exact List.length_pos.mpr (List.ne_nil_of_mem hqf)
          simp only [List.map_append, List.map]
          simp [List.nodup_append, h1, hnotin]
        · show (if playerForeign reg p.1 then fc + 1 else fc) ≤ 4
          by_cases hf : playerForeign reg p.1 = true
          · rw [if_pos hf]
            rcases hacc.2 with hcon | hlt
            · rw [hf] at hcon
              cases hcon
            · omega
          · rw [if_neg hf]
            exact h3
        · show (sel ++ [p]).length ≤ k + 1
          rw [List.length_append]
          simpa using h4
      · rw [if_neg hacc]
        exact ih sel tc fc k ⟨h1, h2, h3, h4⟩

/-- Claim C9 counterexample: the pre-pass does not apply the origin-team
or role-cap checks the greedy pass applies.  On a roster whose four
category representatives all belong to team `"T"` and all simplify to the
BAT role category, the pre-pass reserves all four -- one more BAT player
from one origin team than the greedy pass's cap of 3 ever admits. -/
theorem prepass_missing_checks_cex :
    roleTeamCount demoReg "T" Role.BAT
      (ensureMinimumRequirements demoReg
        (categorizePlayers demoRoles demoBatIn demoBowlIn demoScores) 0 0).1 = 4 ∧
    maxRolePerTeam Role.BAT = 3 := by
  have hcat : categorizePlayers demoRoles demoBatIn demoBowlIn demoScores =
      { batsmen := [("B1", 0)]
        bowlers := [("W1", 0)]
        allRounders := [("A1", 0)]
        wicketKeepers := [("MS Dhoni", 0)] } := by
    norm_num [categorizePlayers, demoRoles, demoBatIn, demoBowlIn, demoScores,
      categorizeRole, wkExceptions, strContains, hasSeg, leadSeg] <;> decide
  have s1 : tryReserve demoReg [] 0 0 [("MS Dhoni", 0)] = ([("MS Dhoni", 0)], 7, 0) := by
    simp [tryReserve, demoReg, playerCredits, playerForeign,
      (show (0 : ℚ) + 7 ≤ 100 by norm_num), (show (7 : ℚ) ≤ 100 by norm_num)]
  have s2 : tryReserve demoReg [("MS Dhoni", 0)] 7 0 [("B1", 0)]
      = ([("MS Dhoni", 0), ("B1", 0)], 14, 0) := by
    simp [tryReserve, demoReg, playerCredits, playerForeign,
      (show (7 : ℚ) + 7 ≤ 100 by norm_num), (show (14 : ℚ) ≤ 100 by norm_num),
      (show (7 : ℚ) + 7 = 14 by norm_num)]
  have s3 : tryReserve demoReg [("MS Dhoni", 0), ("B1", 0)] 14 0 [("A1", 0)]
      = ([("MS Dhoni", 0), ("B1", 0), ("A1", 0)], 21, 0) := by
    simp [tryReserve, demoReg, playerCredits, playerForeign,
      (show (14 : ℚ) + 7 ≤ 100 by norm_num), (show (21 : ℚ) ≤ 100 by norm_num),
      (show (14 : ℚ) + 7 = 21 by norm_num)]
  have s4 : tryReserve demoReg [("MS Dhoni", 0), ("B1", 0), ("A1", 0)] 21 0 [("W1", 0)]
      = ([("MS Dhoni", 0), ("B1", 0), ("A1", 0), ("W1", 0)], 28, 0) := by
    simp [tryReserve, demoReg, playerCredits, playerForeign,
      (show (21 : ℚ) + 7 ≤ 100 by norm_num), (show (28 : ℚ) ≤ 100 by norm_num),
      (show (21 : ℚ) + 7 = 28 by norm_num)]
  have hfull : (ensureMinimumRequirements demoReg
      (categorizePlayers demoRoles demoBatIn demoBowlIn demoScores) 0 0).1
      = [("MS Dhoni", 0), ("B1", 0), ("A1", 0), ("W1", 0)] := by
    rw [ensureMinimumRequirements, hcat]
    simp only [s1, s2, s3, s4]
  rw [hfull]
  constructor
  · norm_num [roleTeamCount, demoReg, playerTeam, simplifyRole, demoRoles,
      simplifyRoleText, strContains, hasSeg, leadSeg, List.countP_cons] <;> decide
  · rfl

/-- Claim C9 amended: the pre-pass applies only the credit-budget and
foreign-cap checks to each candidate (not the origin-team or role-cap
checks), and it never reserves a player twice: starting within the budget
and foreign caps it stays within them, reserves at most four players (one
per category), and produces no duplicate name. -/
theorem prepass_credit_foreign_only (reg : Registry) (cat : Categorized)
    (tc : ℚ) (fc : ℕ) (htc : tc ≤ 100) (hfc : fc ≤ 4) :
    ((ensureMinimumRequirements reg cat tc fc).1.map Prod.fst).Nodup ∧
    (ensureMinimumRequirements reg cat tc fc).2.1 ≤ 100 ∧
    (ensureMinimumRequirements reg cat tc fc).2.2 ≤ 4 ∧
    (ensureMinimumRequirements reg cat tc fc).1.length ≤ 4 := by
  have h0 : ReserveOK [] tc fc 0 := ⟨List.nodup_nil, htc, hfc, by simp⟩
  have h4 :=
    tryReserve_preserves reg cat.bowlers _ _ _ 3
      (tryReserve_preserves reg cat.allRounders _ _ _ 2
        (tryReserve_preserves reg cat.batsmen _ _ _ 1
          (tryReserve_preserves reg cat.wicketKeepers [] tc fc 0 h0)))
  exact ⟨h4.1, h4.2.1, h4.2.2.1, h4.2.2.2⟩

/-- Witness for the amended C9 at concrete inputs: the pre-pass run of the
counterexample roster stays within the caps and reserves four distinct
players. -/
theorem prepass_credit_foreign_only_witness :
    ((ensureMinimumRequirements demoReg
        (categorizePlayers demoRoles demoBatIn demoBowlIn demoScores) 0 0).1.map
      Prod.fst).Nodup ∧
    (ensureMinimumRequirements demoReg
      (categorizePlayers demoRoles demoBatIn demoBowlIn demoScores) 0 0).2.1 ≤ 100 ∧
    (ensureMinimumRequirements demoReg
      (categorizePlayers demoRoles demoBatIn demoBowlIn demoScores) 0 0).2.2 ≤ 4 ∧
    (ensureMinimumRequirements demoReg
      (categorizePlayers demoRoles demoBatIn demoBowlIn demoScores) 0 0).1.length ≤ 4 :=
  prepass_credit_foreign_only demoReg
    (categorizePlayers demoRoles demoBatIn demoBowlIn demoScores) 0 0
    (by norm_num) (by norm_num)

/-- Claim C4 counterexample: in the bowler direction a list-valued
head-to-head entry is skipped whole, not collapsed to its first record.
Here the first (and only) record would contribute `2*5 + (10 - 5) = 15`,
but the pass leaves the bowler's score at 0. -/
theorem bowler_h2h_list_skipped_cex :
    bowlH2HContribution
      { strikeRate := none
        average := none
        boundaryPct := none
        dismissals := some 2
        econ := some 5
        message := false } = 15 ∧
    analyzeH2H (fun _ => none) demoBowlerData ["Bat1"] ["Bowl1"] []
      = [("Bat1", 0), ("Bowl1", 0)] := by
  constructor
  · norm_num [bowlH2HContribution]
  · simp [analyzeH2H, h2hBatterPass, h2hBowlerPass, h2hBatterStep, h2hBowlerStep,
      initScore, demoBowlerData, bowlPairScore, List.foldl]

/-- Claim C4 amended: in the batter direction a non-empty list collapses
to its first record and `'Message'`-flagged records are skipped; in the
bowler direction any list is skipped whole and a plain record is used with
no `'Message'` check; the bowling contribution is
`dismissals*5 + (10 - min(economy, 10))` with a missing economy
defaulting to 15, so that its term contributes 0. -/
theorem h2h_first_record_and_formula :
    (∀ (r : H2HRecord) (l : List H2HRecord),
      batPairScore (H2HData.recList (r :: l)) = batPairScore (H2HData.record r)) ∧
    (∀ r : H2HRecord, r.message = true → batPairScore (H2HData.record r) = none) ∧
    (∀ r : H2HRecord, r.message = false →
      batPairScore (H2HData.record r) = some (batH2HContribution r)) ∧
    (∀ l : List H2HRecord, bowlPairScore (H2HData.recList l) = none) ∧
    (∀ r : H2HRecord, bowlPairScore (H2HData.record r)
      = some (r.dismissals.getD 0 * 5 + (10 - min (r.econ.getD 15) 10))) ∧
    (∀ r : H2HRecord, r.econ = none →
      bowlPairScore (H2HData.record r) = some (r.dismissals.getD 0 * 5)) := by
  refine ⟨?_, ?_, ?_, ?_, ?_, ?_⟩
  · intro r l
    rfl
  · intro r h
    simp [batPairScore, h]
  · intro r h
    simp [batPairScore, h]
  · intro l
    rfl
  · intro r
    rfl
  · intro r h
    have hmin : min ((15 : ℚ)) 10 = 10 := by norm_num
    simp [bowlPairScore, bowlH2HContribution, h, hmin]

/-- Witness for the amended C4 at concrete records: a two-record list in
the batter direction equals its first record's score, a flagged record is
skipped, and a record with no economy contributes only the dismissal
term. -/
theorem h2h_first_record_and_formula_witness :
    batPairScore (H2HData.recList
        [{ strikeRate := some 100
           average := some 20
           boundaryPct := some 10
           dismissals := some 1
           econ := none
           message := false },
         { strikeRate := some 999
           average := none
           boundaryPct := none
           dismissals := none
           econ := none
           message := false }])
      = batPairScore (H2HData.record
        { strikeRate := some 100
          average := some 20
          boundaryPct := some 10
          dismissals := some 1
          econ := none
          message := false }) ∧
    batPairScore (H2HData.record
      { strikeRate := none
        average := none
        boundaryPct := none
        dismissals := none
        econ := none
        message := true }) = none ∧
    bowlPairScore (H2HData.recList []) = none ∧
    bowlPairScore (H2HData.record
      { strikeRate := none
        average := none
        boundaryPct := none
        dismissals := some 3
        econ := none
        message := false })
      = some ((Option.some (3 : ℚ)).getD 0 * 5) :=
  ⟨h2h_first_record_and_formula.1 _ _,
   h2h_first_record_and_formula.2.1 _ rfl,
   h2h_first_record_and_formula.2.2.2.1 [],
   h2h_first_record_and_formula.2.2.2.2.2 _ rfl⟩

/-- Claim C5: the recent-form arithmetic as written in the source.  A
`'Batting Match-wise'` table contributes `mean(Runs)/10 +
mean(Strike Rate)/100` and a `'Bowling Match-wise'` table
`mean(Wickets)*5 + (10 - min(mean(Economy), 10))`; for the one-table
player `"P"` the pass as written would produce exactly `50/10 + 150/100 =
13/2`.  At runtime the source's `pd.StringIO` raises `AttributeError`
(pandas has no such attribute), the blanket `except` swallows it, and the
pass adds nothing -- the claim describes the intended behaviour, the code
path is dead. -/
theorem recent_form_intended_contribution :
    formEntryBatScore
      { runs := some [50], strikeRate := some [150], wickets := none,
        economy := none } = 13 / 2 ∧
    formEntryBowlScore
      { runs := none, strikeRate := none, wickets := some [2],
        economy := some [6] } = 14 ∧
    analyzeRecentForm demoBatterForm (fun _ => none) ["P"] [] = [("P", 13 / 2)] := by
  refine ⟨?_, ?_, ?_⟩
  · norm_num [formEntryBatScore, mean]
  · norm_num [formEntryBowlScore, mean]
  · simp [analyzeRecentForm, recentFormStep, batFormAdds, bowlFormAdds, initScore,
      addScore, demoBatterForm, List.foldl, formEntryBatScore, mean]
    norm_num

/-! Lookup lemmas on the score map, towards claim C6. -/

lemma lookupScore_present (m : ScoreMap) (p : String)
    (h : (m.any fun q => q.1 == p) = true) :
    ∃ v, lookupScore m p = some v := by
  obtain ⟨q, hq, hqp⟩ := List.any_eq_true.mp h
  have hs : (m.find? fun q => q.1 == p).isSome = true :=
    List.find?_isSome.mpr ⟨q, hq, hqp⟩
  obtain ⟨r, hr⟩ := Option.isSome_iff_exists.mp hs
  exact ⟨r.2, by simp [lookupScore, hr]⟩

lemma lookupScore_absent (m : ScoreMap) (p : String)
    (h : (m.any fun q => q.1 == p) = false) :
    lookupScore m p = none := by
  have hfind : m.find? (fun q => q.1 == p) = none :=
    List.find?_eq_none.mpr (List.any_eq_false.mp h)
  simp [lookupScore, hfind]

lemma lookupScore_initScore_self (m : ScoreMap) (p : String) :
    lookupScore (initScore m p) p = some ((lookupScore m p).getD 0) := by
  unfold initScore
  by_cases h : (m.any fun q => q.1 == p) = true
  · rw [if_pos h]
    obtain ⟨v, hv⟩ := lookupScore_present m p h
    rw [hv]
    rfl
  · rw [if_neg h]
    have hf : (m.any fun q => q.1 == p) = false := by
      cases hh : m.any fun q => q.1 == p
      · rfl
      · exact absurd hh h
    have habs := lookupScore_absent m p hf
    have hfind : m.find? (fun q => q.1 == p) = none :=
      List.find?_eq_none.mpr (List.any_eq_false.mp hf)
    rw [habs]
    simp [lookupScore, List.find?_append, hfind]

lemma lookupScore_initScore_other (m : ScoreMap) (p q : String) (h : q ≠ p) :
    lookupScore (initScore m q) p = lookupScore m p := by
  unfold initScore
  split
  · rfl
  · have hq : (q == p) = false := by
      simp [h]
    simp [lookupScore, List.find?_append, hq]

lemma find?_addScore (p q : String) (v : ℚ) (h : q ≠ p) :
    ∀ m : ScoreMap, (addScore m q v).find? (fun r => r.1 == p)
      = m.find? fun r => r.1 == p := by
  intro m
  induction m with
  | nil => rfl
  | cons x xs ih =>
    have hcons : addScore (x :: xs) q v
        = (if (x.1 == q) = true then (x.1, x.2 + v) else x) :: addScore xs q v := rfl
    rw [hcons, List.find?_cons, List.find?_cons]
    by_cases hxp : (x.1 == p) = true
    · have hx1 : x.1 = p := by simpa using hxp
      have hxq : ¬ (x.1 == q) = true := by
        rw [hx1]
        simp
        exact fun hh => h hh.symm
      rw [if_neg hxq]
      simp only [hxp]
    · have hxp' : (x.1 == p) = false := by
        cases hh : x.1 == p
        · rfl
        · exact absurd hh hxp
      by_cases hxq : (x.1 == q) = true
      · rw [if_pos hxq]
        simp only [hxp']
        exact ih
      · rw [if_neg hxq]
        simp only [hxp']
        exact ih

lemma lookupScore_addScore_other (m : ScoreMap) (p q : String) (v : ℚ)
    (h : q ≠ p) : lookupScore (addScore m q v) p = lookupScore m p := by
  unfold lookupScore
  rw [find?_addScore p q v h m]

lemma foldl_lookup_const {α : Type} (p : String) :
    ∀ (xs : List α) (F : ScoreMap → α → ScoreMap) (m : ScoreMap),
      (∀ m x, x ∈ xs → lookupScore (F m x) p = lookupScore m p) →
      lookupScore (xs.foldl F m) p = lookupScore m p := by
  intro xs
  induction xs with
  | nil =>
    intro F m _
    rfl
  | cons x t ih =>
    intro F m hF
    rw [List.foldl_cons,
      ih F (F m x) (fun m y hy => hF m y (List.mem_cons_of_mem x hy)),
      hF m x (List.mem_cons_self x t)]

lemma h2hBatterStep_lookup_self (bd : String → Option StatsRec) (t2 : List String)
    (m : ScoreMap) (p : String) (hp : bd p = none) :
    lookupScore (h2hBatterStep bd t2 m p) p = some ((lookupScore m p).getD 0) := by
  unfold h2hBatterStep
  simp only [hp]
  exact lookupScore_initScore_self m p

lemma h2hBatterStep_lookup_other (bd : String → Option StatsRec) (t2 : List String)
    (m : ScoreMap) (p b : String) (hbp : b ≠ p) :
    lookupScore (h2hBatterStep bd t2 m b) p = lookupScore m p := by
  unfold h2hBatterStep
  cases hb : bd b with
  | none =>
    simp only [hb]
    exact lookupScore_initScore_other m p b hbp
  | some sr =>
    simp only [hb]
    refine (foldl_lookup_const p t2 _ (initScore m b) ?_).trans
      (lookupScore_initScore_other m p b hbp)
    intro m' x _
    cases hh : sr.headToHead x with
    | none => rfl
    | some d =>
      cases hv : batPairScore d with
      | none => simp only [hv]
      | some v =>
        simp only [hv]
        exact lookupScore_addScore_other m' p b v hbp

lemma h2hBowlerStep_lookup_self (wd : String → Option StatsRec) (t1 : List String)
    (m : ScoreMap) (p : String) (hp : wd p = none) :
    lookupScore (h2hBowlerStep wd t1 m p) p = some ((lookupScore m p).getD 0) := by
  unfold h2hBowlerStep
  simp only [hp]
  exact lookupScore_initScore_self m p

lemma h2hBowlerStep_lookup_other (wd : String → Option StatsRec) (t1 : List String)
    (m : ScoreMap) (p b : String) (hbp : b ≠ p) :
    lookupScore (h2hBowlerStep wd t1 m b) p = lookupScore m p := by
  unfold h2hBowlerStep
  cases hb : wd b with
  | none =>
    simp only [hb]
    exact lookupScore_initScore_other m p b hbp
  | some sr =>
    simp only [hb]
    refine (foldl_lookup_const p t1 _ (initScore m b) ?_).trans
      (lookupScore_initScore_other m p b hbp)
    intro m' x _
    cases hh : sr.headToHead x with
    | none => rfl
    | some d =>
      cases hv : bowlPairScore d with
      | none => simp only [hv]
      | some v =>
        simp only [hv]
        exact lookupScore_addScore_other m' p b v hbp

lemma venueStep_lookup (bd wd : String → Option StatsRec) (venue : String)
    (m : ScoreMap) (p x : String) (hb : bd p = none) (hw : wd p = none) :
    lookupScore (venueStep bd wd venue m x) p = lookupScore m p := by
  unfold venueStep
  by_cases hxp : x = p
  · subst hxp
    have hbd : batVenueDelta bd venue x = none := by
      unfold batVenueDelta
      simp only [hb]
    have hwd : bowlVenueDelta wd venue x = none := by
      unfold bowlVenueDelta
      simp only [hw]
    simp only [hbd, hwd]
  · cases h1 : batVenueDelta bd venue x with
    | none =>
      cases h2 : bowlVenueDelta wd venue x with
      | none => rfl
      | some v => exact lookupScore_addScore_other m p x v hxp
    | some v =>
      cases h2 : bowlVenueDelta wd venue x with
      | none => exact lookupScore_addScore_other m p x v hxp
      | some w =>
        exact (lookupScore_addScore_other _ p x w hxp).trans
          (lookupScore_addScore_other m p x v hxp)

lemma formAdds_lookup_other (x p : String) (hxp : x ≠ p) (label : String)
    (G : FormTable → ℚ) (entries : List (String × FormTable)) (m : ScoreMap) :
    lookupScore (entries.foldl
        (fun m e => if e.1 = label then addScore m x (G e.2) else m) m) p
      = lookupScore m p := by
  refine foldl_lookup_const p entries _ m ?_
  intro m' e _
  by_cases he : e.1 = label
  · rw [if_pos he]
    exact lookupScore_addScore_other m' p x _ hxp
  · rw [if_neg he]

lemma batFormAdds_lookup_other (bd : String → Option StatsRec)
    (m : ScoreMap) (p x : String) (hxp : x ≠ p) :
    lookupScore (batFormAdds bd m x) p = lookupScore m p := by
  unfold batFormAdds
  cases h1 : bd x with
  | none => rfl
  | some sr =>
    simp only []
    cases h2 : sr.recentForm with
    | none => rfl
    | some entries => exact formAdds_lookup_other x p hxp _ _ entries m

lemma bowlFormAdds_lookup_other (wd : String → Option StatsRec)
    (m : ScoreMap) (p x : String) (hxp : x ≠ p) :
    lookupScore (bowlFormAdds wd m x) p = lookupScore m p := by
  unfold bowlFormAdds
  cases h1 : wd x with
  | none => rfl
  | some sr =>
    simp only []
    cases h2 : sr.recentForm with
    | none => rfl
    | some entries => exact formAdds_lookup_other x p hxp _ _ entries m

lemma recentFormStep_lookup_self (bd wd : String → Option StatsRec)
    (m : ScoreMap) (p : String) (hb : bd p = none) (hw : wd p = none) :
    lookupScore (recentFormStep bd wd m p) p = some ((lookupScore m p).getD 0) := by
  unfold recentFormStep bowlFormAdds batFormAdds
  simp only [hb, hw]
  exact lookupScore_initScore_self m p

lemma recentFormStep_lookup_other (bd wd : String → Option StatsRec)
    (m : ScoreMap) (p x : String) (hxp : x ≠ p) :
    lookupScore (recentFormStep bd wd m x) p = lookupScore m p := by
  unfold recentFormStep
  exact ((bowlFormAdds_lookup_other wd _ p x hxp).trans
    (batFormAdds_lookup_other bd _ p x hxp)).trans
    (lookupScore_initScore_other m p x hxp)

lemma h2hBatterPass_lookup (bd : String → Option StatsRec) (t2 : List String)
    (p : String) (hp : bd p = none) :
    ∀ (t1 : List String) (m : ScoreMap),
      lookupScore (h2hBatterPass bd t1 t2 m) p
        = if p ∈ t1 then some ((lookupScore m p).getD 0) else lookupScore m p := by
  intro t1
  induction t1 with
  | nil =>
    intro m
    simp [h2hBatterPass]
  | cons b rest ih =>
    intro m
    have hstep : h2hBatterPass bd (b :: rest) t2 m
        = h2hBatterPass bd rest t2 (h2hBatterStep bd t2 m b) := rfl
    rw [hstep, ih]
    by_cases hbp : b = p
    · subst hbp
      rw [h2hBatterStep_lookup_self bd t2 m b hp,
        if_pos (List.mem_cons_self b rest)]
      by_cases hr : b ∈ rest
      · rw [if_pos hr]
        rfl
      · rw [if_neg hr]
    · rw [h2hBatterStep_lookup_other bd t2 m p b hbp]
      by_cases hr : p ∈ rest
      · rw [if_pos hr, if_pos (List.mem_cons_of_mem b hr)]
      · rw [if_neg hr, if_neg (by
          intro hh
          rcases List.mem_cons.mp hh with hh | hh
          · exact hbp hh.symm
          · exact hr hh)]

lemma h2hBowlerPass_lookup (wd : String → Option StatsRec) (t1 : List String)
    (p : String) (hp : wd p = none) :
    ∀ (t2 : List String) (m : ScoreMap),
      lookupScore (h2hBowlerPass wd t1 t2 m) p
        = if p ∈ t2 then some ((lookupScore m p).getD 0) else lookupScore m p := by
  intro t2
  induction t2 with
  | nil =>
    intro m
    simp [h2hBowlerPass]
  | cons b rest ih =>
    intro m
    have hstep : h2hBowlerPass wd t1 (b :: rest) m
        = h2hBowlerPass wd t1 rest (h2hBowlerStep wd t1 m b) := rfl
    rw [hstep, ih]
    by_cases hbp : b = p
    · subst hbp
      rw [h2hBowlerStep_lookup_self wd t1 m b hp,
        if_pos (List.mem_cons_self b rest)]
      by_cases hr : b ∈ rest
      · rw [if_pos hr]
        rfl
      · rw [if_neg hr]
    · rw [h2hBowlerStep_lookup_other wd t1 m p b hbp]
      by_cases hr : p ∈ rest
      · rw [if_pos hr, if_pos (List.mem_cons_of_mem b hr)]
      · rw [if_neg hr, if_neg (by
          intro hh
          rcases List.mem_cons.mp hh with hh | hh
          · exact hbp hh.symm
          · exact hr hh)]

lemma analyzeVenue_lookup (bd wd : String → Option StatsRec) (venue : String)
    (players : List String) (p : String) (hb : bd p = none) (hw : wd p = none)
    (m : ScoreMap) :
    lookupScore (analyzeVenue bd wd venue players m) p = lookupScore m p :=
  foldl_lookup_const p players _ m
    (fun m' x _ => venueStep_lookup bd wd venue m' p x hb hw)

lemma analyzeRecentForm_lookup (bd wd : String → Option StatsRec)
    (p : String) (hb : bd p = none) (hw : wd p = none) :
    ∀ (players : List String) (m : ScoreMap),
      lookupScore (analyzeRecentForm bd wd players m) p
        = if p ∈ players then some ((lookupScore m p).getD 0) else lookupScore m p := by
  intro players
  induction players with
  | nil =>
    intro m
    simp [analyzeRecentForm]
  | cons b rest ih =>
    intro m
    have hstep : analyzeRecentForm bd wd (b :: rest) m
        = analyzeRecentForm bd wd rest (recentFormStep bd wd m b) := rfl
    rw [hstep, ih]
    by_cases hbp : b = p
    · subst hbp
      rw [recentFormStep_lookup_self bd wd m b hb hw,
        if_pos (List.mem_cons_self b rest)]
      by_cases hr : b ∈ rest
      · rw [if_pos hr]
        rfl
      · rw [if_neg hr]
    · rw [recentFormStep_lookup_other bd wd m p b (fun hh => hbp hh)]
      by_cases hr : p ∈ rest
      · rw [if_pos hr, if_pos (List.mem_cons_of_mem b hr)]
      · rw [if_neg hr, if_neg (by
          intro hh
          rcases List.mem_cons.mp hh with hh | hh
          · exact hbp hh.symm
          · exact hr hh)]

lemma analyzeH2H_lookup (bd wd : String → Option StatsRec) (p : String)
    (hb : bd p = none) (hw : wd p = none) (A B : List String) (m : ScoreMap) :
    lookupScore (analyzeH2H bd wd A B m) p
      = if p ∈ A ∨ p ∈ B then some ((lookupScore m p).getD 0)
        else lookupScore m p := by
  unfold analyzeH2H
  rw [h2hBowlerPass_lookup wd A p hw B _, h2hBatterPass_lookup bd B p hb A m]
  by_cases hA : p ∈ A
  · rw [if_pos hA]
    by_cases hB : p ∈ B
    · rw [if_pos hB, if_pos (Or.inl hA)]
      rfl
    · rw [if_neg hB, if_pos (Or.inl hA)]
  · rw [if_neg hA]
    by_cases hB : p ∈ B
    · rw [if_pos hB, if_pos (Or.inr hB)]
    · rw [if_neg hB, if_neg (by
        rintro (hh | hh)
        · exact hA hh
        · exact hB hh)]

/-- Claim C6: a player present in the match input but absent from both
historical dicts gets a final score of exactly 0: every pass leaves the
player untouched except the initialisations to 0, and no error-free
default path changes it. -/
theorem missing_player_scores_zero (d : FixedData) (s : PredictorState)
    (inp : MatchInput) (p : String)
    (hmem : p ∈ (inp.team1XI ++ inp.team2XI).map PlayerEntry.name)
    (hb : d.batterData p = none) (hw : d.bowlerData p = none) :
    lookupScore (predictDream11 d s inp).1.playerScores p = some 0 := by
  have hscores : (predictDream11 d s inp).1.playerScores
      = analyzeRecentForm d.batterData d.bowlerData
          ((inp.team1XI ++ inp.team2XI).map PlayerEntry.name)
          (analyzeVenue d.batterData d.bowlerData inp.venue
            ((inp.team1XI ++ inp.team2XI).map PlayerEntry.name)
            (analyzeH2H d.batterData d.bowlerData
              (inp.team2XI.map PlayerEntry.name)
              (inp.team1XI.map PlayerEntry.name)
              (analyzeH2H d.batterData d.bowlerData
                (inp.team1XI.map PlayerEntry.name)
                (inp.team2XI.map PlayerEntry.name) []))) := rfl
  rw [hscores]
  have hmem' : p ∈ inp.team1XI.map PlayerEntry.name
      ∨ p ∈ inp.team2XI.map PlayerEntry.name := by
    rw [List.map_append] at hmem
    exact List.mem_append.mp hmem
  have h1 : lookupScore (analyzeH2H d.batterData d.bowlerData
      (inp.team1XI.map PlayerEntry.name) (inp.team2XI.map PlayerEntry.name) []) p
      = some 0 := by
    rw [analyzeH2H_lookup d.batterData d.bowlerData p hb hw _ _ [],
      if_pos hmem']
    rfl
  have h2 : lookupScore (analyzeH2H d.batterData d.bowlerData
      (inp.team2XI.map PlayerEntry.name) (inp.team1XI.map PlayerEntry.name)
      (analyzeH2H d.batterData d.bowlerData (inp.team1XI.map PlayerEntry.name)
        (inp.team2XI.map PlayerEntry.name) [])) p = some 0 := by
    rw [analyzeH2H_lookup d.batterData d.bowlerData p hb hw _ _ _, h1]
    by_cases hc : p ∈ inp.team2XI.map PlayerEntry.name
        ∨ p ∈ inp.team1XI.map PlayerEntry.name
    · rw [if_pos hc]
      rfl
    · rw [if_neg hc]
  have h3 : lookupScore (analyzeVenue d.batterData d.bowlerData inp.venue
      ((inp.team1XI ++ inp.team2XI).map PlayerEntry.name)
      (analyzeH2H d.batterData d.bowlerData (inp.team2XI.map PlayerEntry.name)
        (inp.team1XI.map PlayerEntry.name)
        (analyzeH2H d.batterData d.bowlerData (inp.team1XI.map PlayerEntry.name)
          (inp.team2XI.map PlayerEntry.name) []))) p = some 0 := by
    rw [analyzeVenue_lookup d.batterData d.bowlerData inp.venue _ p hb hw _]
    exact h2
  rw [analyzeRecentForm_lookup d.batterData d.bowlerData p hb hw _ _,
    if_pos hmem, h3]
  rfl

/-- Witness for C6 at a concrete match input: the unknown player `"X"`
(no batter record, no bowler record) ends at exactly 0. -/
theorem missing_player_scores_zero_witness :
    lookupScore (predictDream11
      { batterData := demoBatterForm
        bowlerData := demoBowlerData
        csvLookup := fun _ => none }
      { registry :=
          { roles := fun _ => none
            credits := fun _ => none
            isForeign := fun _ => none
            teams := fun _ => none }
        playerScores := []
        selectedTeam := [] }
      { team1 := "T1"
        team2 := "T2"
        venue := "V"
        team1XI := [{ name := "X", roleText := none }]
        team2XI := [{ name := "P", roleText := none }] }).1.playerScores "X"
      = some 0 :=
  missing_player_scores_zero _ _ _ "X" (by decide) rfl rfl

/-! Stability of `set_player_roles`, towards claim C8: every value the
loop writes depends only on the entry and the roster data, never on the
registry it starts from. -/

lemma setPlayerRoles_congr (d : FixedData) :
    ∀ (es : List PlayerEntry) (r r' : Registry),
      (∀ n, n ∉ es.map PlayerEntry.name →
        r.roles n = r'.roles n ∧ r.credits n = r'.credits n ∧
          r.isForeign n = r'.isForeign n) →
      (∀ n, n ∉ es.map PlayerEntry.name ∨ d.csvLookup n = none →
        r.teams n = r'.teams n) →
      setPlayerRoles d r es = setPlayerRoles d r' es := by
  intro es
  induction es with
  | nil =>
    intro r r' h1 h2
    have hr : ∀ n, r.roles n = r'.roles n := fun n => (h1 n (by simp)).1
    have hc : ∀ n, r.credits n = r'.credits n := fun n => (h1 n (by simp)).2.1
    have hf : ∀ n, r.isForeign n = r'.isForeign n := fun n => (h1 n (by simp)).2.2
    have ht : ∀ n, r.teams n = r'.teams n := fun n => h2 n (Or.inl (by simp))
    exact Registry.ext (funext hr) (funext hc) (funext hf) (funext ht)
  | cons e rest ih =>
    intro r r' h1 h2
    have hstep : ∀ rr : Registry,
        setPlayerRoles d rr (e :: rest) = setPlayerRoles d (setRolesStep d rr e) rest :=
      fun rr => rfl
    rw [hstep r, hstep r']
    have hnotname : ∀ n, n ∉ rest.map PlayerEntry.name → n ≠ e.name →
        n ∉ (e :: rest).map PlayerEntry.name := by
      intro n hn hne hmem
      rcases List.mem_cons.mp hmem with hh | hh
      · exact hne hh
      · exact hn hh
    apply ih
    · intro n hn
      by_cases hne : n = e.name
      · subst hne
        unfold setRolesStep
        cases hc : d.csvLookup e.name
        · exact ⟨by simp, by simp, by simp⟩
        · exact ⟨by simp, by simp, by simp⟩
      · have horig := h1 n (hnotname n hn hne)
        unfold setRolesStep
        cases hc : d.csvLookup e.name
        · exact ⟨by simp [hne, horig.1], by simp [hne, horig.2.1],
            by simp [hne, horig.2.2]⟩
        · exact ⟨by simp [hne, horig.1], by simp [hne, horig.2.1],
            by simp [hne, horig.2.2]⟩
    · intro n hn
      by_cases hne : n = e.name
      · subst hne
        unfold setRolesStep
        cases hc : d.csvLookup e.name
        · show r.teams e.name = r'.teams e.name
          exact h2 e.name (Or.inr hc)
        · simp
      · unfold setRolesStep
        have horig : r.teams n = r'.teams n := by
          rcases hn with hn | hn
          · exact h2 n (Or.inl (hnotname n hn hne))
          · exact h2 n (Or.inr hn)
        cases hc : d.csvLookup e.name
        · exact horig
        · simp [hne, horig]

lemma setPlayerRoles_unwritten (d : FixedData) :
    ∀ (es : List PlayerEntry) (r : Registry) (n : String),
      (n ∉ es.map PlayerEntry.name →
        (setPlayerRoles d r es).roles n = r.roles n ∧
        (setPlayerRoles d r es).credits n = r.credits n ∧
        (setPlayerRoles d r es).isForeign n = r.isForeign n) ∧
      (n ∉ es.map PlayerEntry.name ∨ d.csvLookup n = none →
        (setPlayerRoles d r es).teams n = r.teams n) := by
  intro es
  induction es with
  | nil =>
    intro r n
    exact ⟨fun _ => ⟨rfl, rfl, rfl⟩, fun _ => rfl⟩
  | cons e rest ih =>
    intro r n
    have hstep : setPlayerRoles d r (e :: rest)
        = setPlayerRoles d (setRolesStep d r e) rest := rfl
    rw [hstep]
    constructor
    · intro hn
      have hne : n ≠ e.name := by
        intro hh
        exact hn (by simp [hh])
      have hnrest : n ∉ rest.map PlayerEntry.name := by
        intro hh
        exact hn (List.mem_cons_of_mem _ hh)
      have hih := (ih (setRolesStep d r e) n).1 hnrest
      have hstepval : (setRolesStep d r e).roles n = r.roles n ∧
          (setRolesStep d r e).credits n = r.credits n ∧
          (setRolesStep d r e).isForeign n = r.isForeign n := by
        unfold setRolesStep
        cases hc : d.csvLookup e.name
        · exact ⟨by simp [hne], by simp [hne], by simp [hne]⟩
        · exact ⟨by simp [hne], by simp [hne], by simp [hne]⟩
      exact ⟨hih.1.trans hstepval.1, hih.2.1.trans hstepval.2.1,
        hih.2.2.trans hstepval.2.2⟩
    · intro hn
      have hih : (setPlayerRoles d (setRolesStep d r e) rest).teams n
          = (setRolesStep d r e).teams n := by
        apply (ih (setRolesStep d r e) n).2
        rcases hn with hn | hn
        · exact Or.inl fun hh => hn (List.mem_cons_of_mem _ hh)
        · exact Or.inr hn
      have hstepval : (setRolesStep d r e).teams n = r.teams n := by
        unfold setRolesStep
        by_cases hne : n = e.name
        · subst hne
          rcases hn with hn | hn
          · exact absurd (by simp) hn
          · rw [hn]
        · cases hc : d.csvLookup e.name
          · rfl
          · simp [hne]
      exact hih.trans hstepval

lemma setPlayerRoles_idem (d : FixedData) (es : List PlayerEntry) (r : Registry) :
    setPlayerRoles d (setPlayerRoles d r es) es = setPlayerRoles d r es := by
  apply setPlayerRoles_congr
  · intro n hn
    exact (setPlayerRoles_unwritten d es r n).1 hn
  · intro n hn
    exact (setPlayerRoles_unwritten d es r n).2 hn

/-- Claim C8: running the full prediction pipeline a second time on the
identical inputs, from the mutable state the first run left behind,
returns the identical state and result (scores, team, captain and
vice-captain included): the scores are recomputed from the fixed data
alone, and the registry writes of `set_player_roles` are
state-independent, so a second pass leaves the registry unchanged. -/
theorem pipeline_idempotent (d : FixedData) (s : PredictorState) (inp : MatchInput) :
    predictDream11 d (predictDream11 d s inp).1 inp = predictDream11 d s inp := by
  have hreg : (predictDream11 d s inp).1.registry
      = setPlayerRoles d s.registry (inp.team1XI ++ inp.team2XI) := rfl
  show predictCore d (predictDream11 d s inp).1.registry inp
      = predictCore d s.registry inp
  rw [hreg]
  simp only [predictCore, setPlayerRoles_idem]

end Predict11
